import Mathlib

/-!
Verification of the marching-cubes compute pipeline
(`src/marching_cubes.ts` and `src/app.ts`).

The orchestrator (`marching_cubes.ts`) and the render glue (`app.ts`) are
embedded directly.  The primitives the orchestrator imports
(`exclusive_scan.ts`, `stream_compact_ids.ts`, `push_constant_builder.ts`,
`volume.ts`, `mc_case_table.ts` and the WGSL kernels) are not part of the
repository snapshot, so they are modelled from the specification, as
flagged by their doc comments.
-/

namespace MCVerify

/-! ## Exclusive scan primitive -/

/-- Modelled from the spec (§4.1, source file `exclusive_scan.ts` is missing):
sequential reference form of an exclusive prefix scan of one block, starting
from accumulator `a`.  A block computes its local exclusive prefix sum. -/
def exclScanAcc (a : Nat) : List Nat → List Nat
  | [] => []
  | x :: xs => a :: exclScanAcc (a + x) xs

theorem exclScanAcc_length (a : Nat) (xs : List Nat) :
    (exclScanAcc a xs).length = xs.length := by
  induction xs generalizing a with
  | nil => rfl
  | cons x xs ih => simp [exclScanAcc, ih]

theorem exclScanAcc_append (a : Nat) (xs ys : List Nat) :
    exclScanAcc a (xs ++ ys) = exclScanAcc a xs ++ exclScanAcc (a + xs.sum) ys := by
  induction xs generalizing a with
  | nil => simp [exclScanAcc]
  | cons x xs ih => simp [exclScanAcc, ih, Nat.add_assoc]

theorem exclScanAcc_eq_map_add (a : Nat) (xs : List Nat) :
    exclScanAcc a xs = (exclScanAcc 0 xs).map (a + ·) := by
  induction xs generalizing a with
  | nil => rfl
  | cons x xs ih =>
    simp only [exclScanAcc, Nat.zero_add, List.map_cons, Nat.add_zero, List.cons.injEq,
      true_and]
    rw [ih (a + x), ih x, List.map_map]
    congr 1
    funext y
    simp [Nat.add_assoc]

theorem exclScanAcc_getD (a : Nat) (xs : List Nat) (i : Nat) (h : i < xs.length) :
    (exclScanAcc a xs).getD i 0 = a + (xs.take i).sum := by
  induction xs generalizing a i with
  | nil => simp at h
  | cons x xs ih =>
    cases i with
    | zero => simp [exclScanAcc]
    | succ i =>
      simp only [List.length_cons, Nat.succ_lt_succ_iff] at h
      have hih := ih (a + x) i h
      simp only [exclScanAcc, List.getD_cons_succ, List.take_succ_cons, List.sum_cons]
      rw [hih]
      omega

/-- Modelled from the spec (§4.1): partition of the input into fixed-size
blocks, in order.  The fuel argument (instantiated with the list length, an
upper bound on the number of blocks when the block size is nonzero) only
drives structural recursion. -/
def chunksAux (B : Nat) : Nat → List Nat → List (List Nat)
  | _, [] => []
  | 0, _ :: _ => []
  | fuel + 1, x :: xs => (x :: xs).take B :: chunksAux B fuel ((x :: xs).drop B)

def chunks (B : Nat) (xs : List Nat) : List (List Nat) :=
  chunksAux B xs.length xs

theorem chunksAux_irrel (B : Nat) (hB : B ≠ 0) :
    ∀ (f1 f2 : Nat) (xs : List Nat), xs.length ≤ f1 → xs.length ≤ f2 →
      chunksAux B f1 xs = chunksAux B f2 xs := by
  intro f1
  induction f1 with
  | zero =>
    intro f2 xs h1 h2
    have hxs : xs = [] := List.eq_nil_of_length_eq_zero (by omega)
    subst hxs
    cases f2 <;> rfl
  | succ f1 ih =>
    intro f2 xs h1 h2
    cases xs with
    | nil => cases f2 <;> rfl
    | cons x xs =>
      cases f2 with
      | zero => simp at h2
      | succ f2 =>
        show (x :: xs).take B :: chunksAux B f1 ((x :: xs).drop B)
            = (x :: xs).take B :: chunksAux B f2 ((x :: xs).drop B)
        simp only [List.length_cons] at h1 h2
        have hd : ((x :: xs).drop B).length ≤ f1 := by
          simp only [List.length_drop, List.length_cons]
          omega
        have hd2 : ((x :: xs).drop B).length ≤ f2 := by
          simp only [List.length_drop, List.length_cons]
          omega
        rw [ih f2 _ hd hd2]

theorem chunks_eq (B : Nat) (hB : B ≠ 0) (xs : List Nat) :
    chunks B xs = if xs = [] then [] else xs.take B :: chunks B (xs.drop B) := by
  cases xs with
  | nil => rfl
  | cons x xs =>
    rw [if_neg (by simp)]
    show (x :: xs).take B :: chunksAux B xs.length ((x :: xs).drop B)
        = (x :: xs).take B :: chunksAux B ((x :: xs).drop B).length ((x :: xs).drop B)
    have hd : ((x :: xs).drop B).length ≤ xs.length := by
      simp only [List.length_drop, List.length_cons]
      omega
    rw [chunksAux_irrel B hB _ _ _ hd le_rfl]

theorem chunks_nil (B : Nat) : chunks B [] = [] := rfl

theorem chunks_join (B : Nat) (hB : B ≠ 0) (xs : List Nat) :
    (chunks B xs).flatten = xs := by
  generalize hn : xs.length = n
  induction n using Nat.strong_induction_on generalizing xs with
  | _ n ih =>
    rw [chunks_eq B hB]
    by_cases hxs : xs = []
    · simp [hxs]
    · simp only [hxs, if_false]
      have h1 : 0 < xs.length := List.length_pos.mpr hxs
      have h2 : (xs.drop B).length < n := by
        simp only [List.length_drop]; omega
      rw [List.flatten_cons, ih _ h2 _ rfl, List.take_append_drop]

/-- Modelled from the spec (§4.1): the work-efficient recursive block scan.
One block covering the (possibly padded) input is scanned directly; otherwise
each block computes its local exclusive prefix sum and its block total, the
block totals are scanned recursively to obtain per-block base offsets, and a
follow-up pass adds each block's base offset to every element of that block.
Returns the scanned buffer together with the total sum.  The fuel argument
(instantiated with the input length, a bound on the recursion depth) only
drives structural recursion and is never exhausted for block size ≥ 2; the
`B < 2` test likewise only guards degenerate block sizes. -/
def scanBlocksAux (B : Nat) : Nat → List Nat → List Nat × Nat
  | 0, A => (exclScanAcc 0 A, A.sum)
  | fuel + 1, A =>
    if A.length ≤ B ∨ B < 2 then
      (exclScanAcc 0 A, A.sum)
    else
      ((List.zipWith (fun off blk => blk.map (off + ·))
          (scanBlocksAux B fuel ((chunks B A).map List.sum)).1
          ((chunks B A).map (exclScanAcc 0))).flatten,
        (scanBlocksAux B fuel ((chunks B A).map List.sum)).2)

def scanBlocksRec (B : Nat) (A : List Nat) : List Nat × Nat :=
  scanBlocksAux B A.length A

/-- Composition lemma: gluing each block's local scan, shifted by the scanned
block totals, yields the scan of the concatenation. -/
theorem zipWith_local_scans (blocks : List (List Nat)) (a : Nat) :
    (List.zipWith (fun off blk => blk.map (off + ·))
        (exclScanAcc a (blocks.map List.sum)) (blocks.map (exclScanAcc 0))).flatten
      = exclScanAcc a blocks.flatten := by
  induction blocks generalizing a with
  | nil => simp [exclScanAcc]
  | cons blk rest ih =>
    simp only [List.map_cons, exclScanAcc, List.zipWith_cons_cons, List.flatten_cons,
      exclScanAcc_append]
    rw [ih (a + blk.sum), ← exclScanAcc_eq_map_add]

theorem scanBlocksAux_correct (B : Nat) (fuel : Nat) (A : List Nat) :
    scanBlocksAux B fuel A = (exclScanAcc 0 A, A.sum) := by
  induction fuel generalizing A with
  | zero => rfl
  | succ fuel ih =>
    show (if A.length ≤ B ∨ B < 2 then _ else _) = _
    by_cases hbase : A.length ≤ B ∨ B < 2
    · rw [if_pos hbase]
    · rw [if_neg hbase]
      push_neg at hbase
      obtain ⟨h1, h2⟩ := hbase
      have hB : B ≠ 0 := by omega
      rw [ih ((chunks B A).map List.sum)]
      simp only [Prod.mk.injEq]
      constructor
      · rw [zipWith_local_scans, chunks_join B hB]
      · rw [← List.sum_flatten, chunks_join B hB]

theorem scanBlocksRec_correct (B : Nat) (A : List Nat) :
    scanBlocksRec B A = (exclScanAcc 0 A, A.sum) :=
  scanBlocksAux_correct B A.length A

/-- Modelled from the spec (§4.1): the deployed scan block size (fixed-size
blocks; the host-visible alignment unit of the primitive). -/
def SCAN_BLOCK_SIZE : Nat := 512

/-- Modelled from the spec (§4.1, `exclusive_scan.ts` is missing):
`getAlignedSize n` (name as called in `marching_cubes.ts`) is the smallest
buffer length `≥ n` that satisfies the primitive's block-size alignment. -/
def getAlignedSize (n : Nat) : Nat :=
  ((n + SCAN_BLOCK_SIZE - 1) / SCAN_BLOCK_SIZE) * SCAN_BLOCK_SIZE

theorem le_getAlignedSize (n : Nat) : n ≤ getAlignedSize n := by
  unfold getAlignedSize SCAN_BLOCK_SIZE
  omega

theorem getAlignedSize_zero : getAlignedSize 0 = 0 := rfl

/-- Modelled from the spec (§4.1, `exclusive_scan.ts` is missing):
`scan(buffer, n)` scans the buffer in place (modelled by returning the new
contents) and returns the total sum of the first `n` elements, obtained as
the scanned result's final valid entry plus the last element's original
value; `n = 0` needs no dispatch and has total 0. -/
def scan (buffer : List Nat) (n : Nat) : List Nat × Nat :=
  if n = 0 then (buffer, 0)
  else
    let scanned := (scanBlocksRec SCAN_BLOCK_SIZE buffer).1
    (scanned, scanned.getD (n - 1) 0 + buffer.getD (n - 1) 0)

theorem sum_take_succ_getD (l : List Nat) (k : Nat) (hk : k < l.length) :
    (l.take (k + 1)).sum = (l.take k).sum + l.getD k 0 := by
  rw [List.sum_take_succ l k hk, List.getD_eq_getElem l 0 hk]

theorem scan_getD (buffer : List Nat) (n i : Nat) (hn : n ≠ 0) (hi : i < buffer.length) :
    (scan buffer n).1.getD i 0 = (buffer.take i).sum := by
  unfold scan
  simp only [hn, if_false]
  rw [scanBlocksRec_correct]
  simpa using exclScanAcc_getD 0 buffer i hi

theorem scan_total (buffer : List Nat) (n : Nat) (hn : n ≤ buffer.length) :
    (scan buffer n).2 = (buffer.take n).sum := by
  by_cases h0 : n = 0
  · simp [scan, h0]
  · have hn1 : n - 1 < buffer.length := by omega
    unfold scan
    simp only [h0, if_false]
    rw [scanBlocksRec_correct]
    simp only
    rw [exclScanAcc_getD 0 buffer (n - 1) hn1, Nat.zero_add,
      ← sum_take_succ_getD buffer (n - 1) hn1,
      Nat.sub_add_cancel (Nat.pos_of_ne_zero h0)]

/-! ## Stream compaction -/

/-- Modelled from the spec (§4.2, source file `stream_compact_ids.ts` is
missing): `compactActiveIDs` writes, for every element `i < n` whose flag is
nonzero, the original index `i` at `output[offsets[i]]`; the output buffer is
sized by the caller to the scan total and is zero-initialised at creation. -/
def compactActiveIDs (flags offsets : List Nat) (total n : Nat) : List Nat :=
  (List.range n).foldl
    (fun out i => if flags.getD i 0 ≠ 0 then out.set (offsets.getD i 0) i else out)
    (List.replicate total 0)

/-- Indices below `n` whose flag is nonzero, in ascending order. -/
def activeIndices (flags : List Nat) (n : Nat) : List Nat :=
  (List.range n).filter (fun i => flags.getD i 0 != 0)

theorem activeIndices_zero (flags : List Nat) : activeIndices flags 0 = [] := rfl

theorem activeIndices_succ (flags : List Nat) (k : Nat) :
    activeIndices flags (k + 1)
      = activeIndices flags k ++ if flags.getD k 0 ≠ 0 then [k] else [] := by
  unfold activeIndices
  rw [List.range_succ, List.filter_append]
  congr 1
  rw [List.filter_cons]
  by_cases h : flags.getD k 0 = 0
  · rw [if_neg (by simp only [bne_iff_ne, ne_eq, not_not]; exact h),
      if_neg (not_not_intro h)]
    rfl
  · rw [if_pos (by simp only [bne_iff_ne, ne_eq]; exact h), if_pos h]
    rfl

theorem activeIndices_length_mono (flags : List Nat) {k n : Nat} (h : k ≤ n) :
    (activeIndices flags k).length ≤ (activeIndices flags n).length := by
  unfold activeIndices
  rw [← List.countP_eq_length_filter, ← List.countP_eq_length_filter]
  exact List.Sublist.countP_le _ ((List.range_sublist).mpr h)

theorem activeIndices_pairwise (flags : List Nat) (n : Nat) :
    List.Pairwise (· < ·) (activeIndices flags n) :=
  List.Pairwise.sublist (List.filter_sublist _) (List.pairwise_lt_range n)

theorem sum_take_eq_activeIndices_length (flags : List Nat) (n : Nat)
    (hn : n ≤ flags.length) (h01 : ∀ i, i < n → flags.getD i 0 ≤ 1) :
    ∀ k, k ≤ n → (flags.take k).sum = (activeIndices flags k).length := by
  intro k hk
  induction k with
  | zero => simp [activeIndices_zero]
  | succ k ih =>
    have hk' : k ≤ n := by omega
    have hkl : k < flags.length := by omega
    rw [sum_take_succ_getD flags k hkl, ih hk', activeIndices_succ,
      List.length_append]
    by_cases h : flags.getD k 0 = 0
    · rw [if_neg (not_not_intro h), h]
      rfl
    · have h1 : flags.getD k 0 = 1 := by
        have := h01 k (by omega)
        omega
      rw [if_pos h, h1]
      rfl

theorem compact_foldl_length (flags offsets : List Nat) (l : List Nat) (out : List Nat) :
    (l.foldl
        (fun out i => if flags.getD i 0 ≠ 0 then out.set (offsets.getD i 0) i else out)
        out).length = out.length := by
  induction l generalizing out with
  | nil => rfl
  | cons x l ih =>
    simp only [List.foldl_cons]
    by_cases h : flags.getD x 0 = 0
    · rw [if_neg (not_not_intro h)]
      exact ih out
    · rw [if_pos h, ih, List.length_set]

theorem compactActiveIDs_length (flags offsets : List Nat) (total n : Nat) :
    (compactActiveIDs flags offsets total n).length = total := by
  unfold compactActiveIDs
  rw [compact_foldl_length, List.length_replicate]

/-- Every scatter destination is the number of earlier active elements, so the
fold fills the output densely, in ascending index order. -/
theorem compactActiveIDs_eq (flags offsets : List Nat) (n : Nat)
    (hn : n ≤ flags.length)
    (h01 : ∀ i, i < n → flags.getD i 0 ≤ 1)
    (hoff : ∀ i, i < n → offsets.getD i 0 = (flags.take i).sum) :
    compactActiveIDs flags offsets ((flags.take n).sum) n = activeIndices flags n := by
  set total := (flags.take n).sum with htot
  have htotn : total = (activeIndices flags n).length :=
    sum_take_eq_activeIndices_length flags n hn h01 n le_rfl
  have key : ∀ k, k ≤ n →
      (List.range k).foldl
          (fun out i => if flags.getD i 0 ≠ 0 then out.set (offsets.getD i 0) i else out)
          (List.replicate total 0)
        = activeIndices flags k
            ++ List.replicate (total - (activeIndices flags k).length) 0 := by
    intro k hk
    induction k with
    | zero => simp [activeIndices_zero]
    | succ k ih =>
      have hk' : k ≤ n := by omega
      rw [List.range_succ, List.foldl_append, ih hk']
      simp only [List.foldl_cons, List.foldl_nil]
      by_cases h : flags.getD k 0 = 0
      · rw [if_neg (not_not_intro h), activeIndices_succ, if_neg (not_not_intro h),
          List.append_nil]
      · have hlen : (activeIndices flags (k + 1)).length
            = (activeIndices flags k).length + 1 := by
          rw [activeIndices_succ, if_pos h, List.length_append, List.length_singleton]
        have hle : (activeIndices flags k).length + 1 ≤ total := by
          rw [htotn, ← hlen]
          exact activeIndices_length_mono flags hk
        have hoffk : offsets.getD k 0 = (activeIndices flags k).length := by
          rw [hoff k (by omega)]
          exact sum_take_eq_activeIndices_length flags n hn h01 k hk'
        rw [if_pos h, hoffk, List.set_append, if_neg (lt_irrefl _), Nat.sub_self]
        have hrep : total - (activeIndices flags k).length
            = (total - (activeIndices flags k).length - 1) + 1 := by
          omega
        rw [hrep, List.replicate_succ, List.set_cons_zero, activeIndices_succ,
          if_pos h]
        simp only [List.append_assoc, List.singleton_append, List.length_append,
          List.length_singleton]
        rw [Nat.sub_sub]
  unfold compactActiveIDs
  rw [key n le_rfl, htotn, Nat.sub_self, List.replicate_zero, List.append_nil]

/-- Expansion of a compacted ID list (the spec's re-expansion check, §8):
set a flag at each listed index of an initially all-zero flag buffer. -/
def expandIDs (ids : List Nat) (n : Nat) : List Nat :=
  ids.foldl (fun buf i => buf.set i 1) (List.replicate n 0)

theorem expand_foldl_length (ids : List Nat) (buf : List Nat) :
    (ids.foldl (fun b i => b.set i 1) buf).length = buf.length := by
  induction ids generalizing buf with
  | nil => rfl
  | cons i ids ih =>
    simp only [List.foldl_cons]
    rw [ih, List.length_set]

theorem expand_foldl_getD (ids : List Nat) (buf : List Nat) (j : Nat)
    (hj : j < buf.length) :
    (ids.foldl (fun b i => b.set i 1) buf).getD j 0
      = if j ∈ ids then 1 else buf.getD j 0 := by
  induction ids generalizing buf with
  | nil => simp
  | cons i ids ih =>
    simp only [List.foldl_cons]
    rw [ih _ (by rw [List.length_set]; exact hj)]
    by_cases hmem : j ∈ ids
    · rw [if_pos hmem, if_pos (List.mem_cons_of_mem i hmem)]
    · rw [if_neg hmem]
      by_cases hij : j = i
      · subst hij
        rw [if_pos (List.mem_cons_self j ids),
          List.getD_eq_getElem _ _ (by rw [List.length_set]; exact hj),
          List.getElem_set_self]
      · have hne : j ∉ i :: ids := by
          intro hc
          rcases List.mem_cons.mp hc with hc | hc
          · exact hij hc
          · exact hmem hc
        rw [if_neg hne, List.getD_eq_getElem _ _ (by rw [List.length_set]; exact hj),
          List.getElem_set_ne (fun hc => hij hc.symm),
          ← List.getD_eq_getElem _ _ hj]

theorem mem_activeIndices (flags : List Nat) (n j : Nat) :
    j ∈ activeIndices flags n ↔ j < n ∧ flags.getD j 0 ≠ 0 := by
  unfold activeIndices
  rw [List.mem_filter, List.mem_range, bne_iff_ne]

theorem expand_activeIndices (flags : List Nat) (n : Nat)
    (hn : n ≤ flags.length) (h01 : ∀ i, i < n → flags.getD i 0 ≤ 1) :
    expandIDs (activeIndices flags n) n = flags.take n := by
  have hlen : (expandIDs (activeIndices flags n) n).length = n := by
    unfold expandIDs
    rw [expand_foldl_length, List.length_replicate]
  have hlen2 : (flags.take n).length = n := by
    rw [List.length_take]
    omega
  apply List.ext_getElem (by rw [hlen, hlen2])
  intro j h1 h2
  have hj : j < n := by rw [hlen] at h1; exact h1
  have hjf : j < flags.length := by omega
  rw [← List.getD_eq_getElem _ 0 h1, ← List.getD_eq_getElem _ 0 h2]
  have htake : (flags.take n).getD j 0 = flags.getD j 0 := by
    rw [List.getD_eq_getElem _ _ h2, List.getElem_take,
      List.getD_eq_getElem _ _ hjf]
  unfold expandIDs
  rw [expand_foldl_getD _ _ _ (by rw [List.length_replicate]; exact hj), htake]
  by_cases hmem : j ∈ activeIndices flags n
  · rw [if_pos hmem]
    have hmem' := (mem_activeIndices flags n j).mp hmem
    have h1' := h01 j hj
    omega
  · rw [if_neg hmem]
    have hz : flags.getD j 0 = 0 := by
      by_contra hc
      exact hmem ((mem_activeIndices flags n j).mpr ⟨hj, hc⟩)
    rw [hz, List.getD_eq_getElem _ _ (by rw [List.length_replicate]; exact hj),
      List.getElem_replicate]

/-- C5: `scan(A, n)` rewrites the buffer (in-place mutation modelled as the
returned contents) so that the value at each index `i < n` equals the sum of
the entries `A[j]` for `j < i`, and the value `scan` returns to the caller
equals the sum of `A[j]` over all `j < n`; entries beyond the first `n` are
required to be zero. -/
theorem scan_exclusive_spec (buffer : List Nat) (n : Nat)
    (hn : n ≤ buffer.length)
    (_hpad : ∀ j, n ≤ j → j < buffer.length → buffer.getD j 0 = 0) :
    (∀ i, i < n → (scan buffer n).1.getD i 0 = (buffer.take i).sum)
    ∧ (scan buffer n).2 = (buffer.take n).sum := by
  refine ⟨fun i hi => ?_, scan_total buffer n hn⟩
  exact scan_getD buffer n i (by omega) (by omega)

theorem scan_exclusive_spec_witness :
    (2 ≤ ([3, 1] : List Nat).length)
    ∧ ((∀ i, i < 2 → (scan [3, 1] 2).1.getD i 0 = (([3, 1] : List Nat).take i).sum)
      ∧ (scan [3, 1] 2).2 = (([3, 1] : List Nat).take 2).sum) :=
  ⟨by decide,
    scan_exclusive_spec [3, 1] 2 (by decide) (by intro j h1 h2; simp at h2; omega)⟩

/-- C6: given a 0/1 flag buffer and its exclusive-scan offsets, the compacted
active-ID list is strictly increasing (ascending original-index order), and
re-expanding the list by setting a flag at each listed index exactly
reproduces the original flag buffer. -/
theorem compact_increasing_and_expand (flags offsets : List Nat) (n total : Nat)
    (hn : n ≤ flags.length)
    (h01 : ∀ i, i < n → flags.getD i 0 ≤ 1)
    (hoff : ∀ i, i < n → offsets.getD i 0 = (flags.take i).sum)
    (htot : total = (flags.take n).sum) :
    List.Pairwise (· < ·) (compactActiveIDs flags offsets total n)
    ∧ expandIDs (compactActiveIDs flags offsets total n) n = flags.take n := by
  subst htot
  rw [compactActiveIDs_eq flags offsets n hn h01 hoff]
  exact ⟨activeIndices_pairwise flags n, expand_activeIndices flags n hn h01⟩

theorem compact_increasing_and_expand_witness :
    (4 ≤ ([0, 1, 1, 0] : List Nat).length)
    ∧ (List.Pairwise (· < ·) (compactActiveIDs [0, 1, 1, 0] [0, 0, 1, 2] 2 4)
      ∧ expandIDs (compactActiveIDs [0, 1, 1, 0] [0, 0, 1, 2] 2 4) 4
          = ([0, 1, 1, 0] : List Nat).take 4) :=
  ⟨by decide,
    compact_increasing_and_expand [0, 1, 1, 0] [0, 0, 1, 2] 4 2 (by decide)
      (by intro i hi; interval_cases i <;> decide)
      (by intro i hi; interval_cases i <;> decide)
      (by decide)⟩

/-! ## Volume and voxel classification -/

/-- Modelled from the spec (§3/§6, source file `volume.ts` is missing): a
volume owns its sample dimensions and a scalar field addressable by sample
coordinate.  Scalars are modelled as integers: every pipeline stage uses them
only through order comparisons with the isovalue. -/
structure Volume where
  dims0 : Nat
  dims1 : Nat
  dims2 : Nat
  field : Nat → Nat → Nat → Int

def Volume.dualGridDims0 (v : Volume) : Nat := v.dims0 - 1

def Volume.dualGridDims1 (v : Volume) : Nat := v.dims1 - 1

def Volume.dualGridDims2 (v : Volume) : Nat := v.dims2 - 1

def Volume.dualGridNumVoxels (v : Volume) : Nat :=
  v.dualGridDims0 * v.dualGridDims1 * v.dualGridDims2

/-- Modelled from the spec (§4.4 stage 2, `compute_voxel_values.wgsl` is
missing): the 8 corner samples of the dual-grid voxel with flat index `i`
(x fastest, then y, then z; corners at the voxel coordinate plus each
0/1 offset). -/
def cornerValues (v : Volume) (i : Nat) : List Int :=
  let x := i % v.dualGridDims0
  let y := (i / v.dualGridDims0) % v.dualGridDims1
  let z := i / (v.dualGridDims0 * v.dualGridDims1)
  [v.field x y z, v.field (x + 1) y z,
   v.field x (y + 1) z, v.field (x + 1) (y + 1) z,
   v.field x y (z + 1), v.field (x + 1) y (z + 1),
   v.field x (y + 1) (z + 1), v.field (x + 1) (y + 1) (z + 1)]

/-- Modelled from the spec (§4.4 stage 2, `mark_active_voxel.wgsl` is
missing): a voxel's flag is 1 iff at least one corner is at-or-above the
isovalue and at least one is below it. -/
def voxelActiveFlag (v : Volume) (iso : Int) (i : Nat) : Nat :=
  if ((cornerValues v i).any fun c => decide (iso ≤ c))
      && ((cornerValues v i).any fun c => decide (c < iso)) then 1 else 0

/-- Modelled from the spec (§4.4 stage 5): the 8-bit corner configuration,
bit `k` set iff corner `k` is at-or-above the isovalue. -/
def voxelConfig (v : Volume) (iso : Int) (i : Nat) : Nat :=
  (List.range 8).foldl
    (fun acc k => if iso ≤ (cornerValues v i).getD k 0 then acc + 2 ^ k else acc) 0

/-- Modelled from the spec (§4.4 stage 5 and §6, `mc_case_table.ts` and
`compute_num_verts.wgsl` are missing): a case table row is a list of edge
entries terminated by the sentinel `-1`; the per-voxel vertex count is the
number of listed edges before the terminator. -/
def numVertsOf (table : Nat → List Int) (v : Volume) (iso : Int) (i : Nat) : Nat :=
  ((table (voxelConfig v iso i)).takeWhile fun e => e != -1).length

/-! ## Orchestrator data pipeline (`marching_cubes.ts`) -/

/-- Contents of the `voxelActive` buffer after the mark-active dispatch: one
flag per dual-grid voxel in voxel-index order; the buffer is allocated at the
scan-aligned size and is zero beyond the voxel count
(`marching_cubes.ts` lines 92-99 and 327-335). -/
def markActiveFlags (v : Volume) (iso : Int) : List Nat :=
  (List.range v.dualGridNumVoxels).map (voxelActiveFlag v iso)
    ++ List.replicate (getAlignedSize v.dualGridNumVoxels - v.dualGridNumVoxels) 0

/-- The scan of the copied flag buffer (`marching_cubes.ts` lines 337-345):
first component the in-place scanned `activeVoxelOffsets`, second the
returned total `nActive`. -/
def flagScanOf (v : Volume) (iso : Int) : List Nat × Nat :=
  scan (markActiveFlags v iso) v.dualGridNumVoxels

def nActiveOf (v : Volume) (iso : Int) : Nat := (flagScanOf v iso).2

/-- The compacted `activeVoxelIDs` buffer (`marching_cubes.ts` lines 347-356):
sized to `nActive` entries and filled by the stream compactor from the flag
buffer and its scanned offsets. -/
def activeIDsOf (v : Volume) (iso : Int) : List Nat :=
  compactActiveIDs (markActiveFlags v iso) (flagScanOf v iso).1
    (nActiveOf v iso) v.dualGridNumVoxels

/-- Contents of the `vertexOffsets` buffer after the chunked
`computeNumVerts` dispatches (`marching_cubes.ts` lines 423-479): the buffer
is allocated zero-filled at the scan-aligned size of `nActive` and entry `i`
receives the vertex count of active voxel `i`. -/
def vertexCountsBufOf (table : Nat → List Int) (v : Volume) (iso : Int) : List Nat :=
  (activeIDsOf v iso).map (numVertsOf table v iso)
    ++ List.replicate (getAlignedSize (nActiveOf v iso) - nActiveOf v iso) 0

/-- The in-place scan of `vertexOffsets` and its returned total `nVertices`
(`marching_cubes.ts` lines 481-484). -/
def vertexScanOf (table : Nat → List Int) (v : Volume) (iso : Int) : List Nat × Nat :=
  scan (vertexCountsBufOf table v iso) (nActiveOf v iso)

def nVerticesOf (table : Nat → List Int) (v : Volume) (iso : Int) : Nat :=
  (vertexScanOf table v iso).2

/-- Result type of `computeSurface` (`marching_cubes.ts` lines 13-23): a
vertex count and the returned device buffer, modelled by its label and
allocation size in bytes. -/
structure BufferModel where
  label : String
  sizeBytes : Nat
  deriving DecidableEq

structure MarchingCubesResult where
  count : Nat
  buffer : BufferModel
  deriving DecidableEq

/-- The value returned by `computeSurface(isovalue)` (`marching_cubes.ts`
lines 286-297): the pair of `vertexOffsets.count` (the vertex-count scan
total) and the `vertices` buffer allocated by `computeVertices` at
`count * 3 * 4` bytes (one `vec3<f32>` per vertex, lines 487-496). -/
def computeSurfaceModel (table : Nat → List Int) (v : Volume) (iso : Int) :
    MarchingCubesResult :=
  ⟨nVerticesOf table v iso, ⟨"vertices", nVerticesOf table v iso * 3 * 4⟩⟩

/-! ## Host-side event traces -/

/-- One host- or device-visible action issued while a method runs, in program
order: buffer allocations, buffer-to-buffer copies, compute dispatches
(tagged with the storage buffers they write), queue submissions, and
readbacks of device data to the host. -/
inductive Event where
  | alloc (label : String) (sizeBytes : Nat)
  | copyB (src dst : String) (bytes : Nat)
  | dispatch (shader : String) (writes : List String)
  | submit
  | readback (label : String)
  deriving DecidableEq

def isAllocOf (l : String) : Event → Bool
  | Event.alloc l2 _ => l2 == l
  | _ => false

def writesBuffer (l : String) : Event → Bool
  | Event.dispatch _ ws => ws.contains l
  | Event.copyB _ dst _ => dst == l
  | _ => false

def isSubmit : Event → Bool
  | Event.submit => true
  | _ => false

/-- Modelled from the spec (§4.3, `push_constant_builder.ts` is missing): the
device's per-dispatch workgroup ceiling. -/
def PC_MAX_DISPATCH : Nat := 65535

/-- Modelled from the spec (§4.3): the number of chunks that cover
`totalWorkGroups` workgroups with at most the device ceiling per chunk;
zero work needs zero chunks. -/
def pcNumDispatches (totalWorkGroups : Nat) : Nat :=
  (totalWorkGroups + PC_MAX_DISPATCH - 1) / PC_MAX_DISPATCH

/-- Buffer allocations performed once by `MarchingCubes.create`
(`marching_cubes.ts` lines 64-99): the case table, the 32-byte volume-info
uniform buffer, and the `voxelActive` flag buffer at the scan-aligned size of
the dual grid. -/
def createEvents (v : Volume) : List Event :=
  [Event.alloc "triCaseTable" (256 * 16 * 4),
   Event.alloc "volumeInfo" (8 * 4),
   Event.alloc "voxelActive" (getAlignedSize v.dualGridNumVoxels * 4)]

/-- Events of `uploadIsovalue` (`marching_cubes.ts` lines 299-312): a 4-byte
staging buffer, one copy into `volumeInfo` and a submit. -/
def uploadIsovalueEvents : List Event :=
  [Event.alloc "uploadIsovalue" 4,
   Event.copyB "uploadIsovalue" "volumeInfo" 4,
   Event.submit]

/-- Modelled from the spec (§4.1/§5.4): `ExclusiveScan.scan` dispatches its
kernels over the buffer in place, then reads the total back to the host
before returning. -/
def scanEvents (bufLabel : String) : List Event :=
  [Event.dispatch "exclusiveScan" [bufLabel],
   Event.submit,
   Event.readback (String.append "scanTotal:" bufLabel)]

/-- Modelled from the spec (§4.2): `StreamCompactIDs.compactActiveIDs`
dispatches the scatter kernel writing the ID output buffer and submits. -/
def compactEvents (idsLabel : String) : List Event :=
  [Event.dispatch "streamCompactIDs" [idsLabel],
   Event.submit]

/-- Events of the two diagnostic readback blocks of `computeActiveVoxels`
(`marching_cubes.ts` lines 360-416). -/
def debugEvents (v : Volume) (nActive : Nat) : List Event :=
  [Event.alloc "debugActive" (v.dualGridNumVoxels * 4),
   Event.alloc "debugOffset" (v.dualGridNumVoxels * 4),
   Event.copyB "voxelActive" "debugActive" (v.dualGridNumVoxels * 4),
   Event.copyB "activeVoxelOffsets" "debugOffset" (v.dualGridNumVoxels * 4),
   Event.submit,
   Event.readback "debugActive",
   Event.readback "debugOffset",
   Event.alloc "debugBuf" (nActive * 4),
   Event.copyB "activeVoxelIDs" "debugBuf" (nActive * 4),
   Event.submit,
   Event.readback "debugBuf"]

/-- Events of `computeActiveVoxels` (`marching_cubes.ts` lines 314-419), in
program order: allocate the offsets copy, dispatch the classifier into
`voxelActive`, copy it to `activeVoxelOffsets`, submit; scan (with its
total readback); only then allocate `activeVoxelIDs` at `nActive * 4` bytes
and run the compaction; finally the diagnostic readbacks. -/
def computeActiveVoxelsEvents (v : Volume) (iso : Int) : List Event :=
  [Event.alloc "activeVoxelOffsets" (getAlignedSize v.dualGridNumVoxels * 4),
   Event.dispatch "markActiveVoxel" ["voxelActive"],
   Event.copyB "voxelActive" "activeVoxelOffsets" (getAlignedSize v.dualGridNumVoxels * 4),
   Event.submit]
  ++ scanEvents "activeVoxelOffsets"
  ++ [Event.alloc "activeVoxelIDs" (nActiveOf v iso * 4)]
  ++ compactEvents "activeVoxelIDs"
  ++ debugEvents v (nActiveOf v iso)

/-- Events of `computeVertexOffsets` (`marching_cubes.ts` lines 421-485):
allocate `vertexOffsets` at the aligned size, allocate the push-constant
parameter buffer, issue one chunked `computeNumVerts` dispatch per chunk of
`ceil(count / 32)` workgroups, submit, then scan `vertexOffsets` in place
(with its total readback). -/
def computeVertexOffsetsEvents (v : Volume) (iso : Int) : List Event :=
  [Event.alloc "vertexOffsets" (getAlignedSize (nActiveOf v iso) * 4),
   Event.alloc "pushConstants" (pcNumDispatches ((nActiveOf v iso + 31) / 32) * 256)]
  ++ List.replicate (pcNumDispatches ((nActiveOf v iso + 31) / 32))
      (Event.dispatch "computeNumVerts" ["vertexOffsets"])
  ++ [Event.submit]
  ++ scanEvents "vertexOffsets"

/-- Events of `computeVertices` (`marching_cubes.ts` lines 487-496): the
method's entire effect is the allocation of the `vertices` buffer at
`count * 3 * 4` bytes; no pass is encoded, nothing is dispatched and nothing
is submitted. -/
def computeVerticesEvents (table : Nat → List Int) (v : Volume) (iso : Int) :
    List Event :=
  [Event.alloc "vertices" (nVerticesOf table v iso * 3 * 4)]

/-- Events of one `computeSurface(isovalue)` call (`marching_cubes.ts`
lines 286-297), the four stages in program order. -/
def computeSurfaceEvents (table : Nat → List Int) (v : Volume) (iso : Int) :
    List Event :=
  uploadIsovalueEvents
  ++ computeActiveVoxelsEvents v iso
  ++ computeVertexOffsetsEvents v iso
  ++ computeVerticesEvents table v iso

theorem activeIDsOf_length (v : Volume) (iso : Int) :
    (activeIDsOf v iso).length = nActiveOf v iso :=
  compactActiveIDs_length _ _ _ _

theorem nActiveOf_le_countsBuf_length (table : Nat → List Int) (v : Volume) (iso : Int) :
    nActiveOf v iso ≤ (vertexCountsBufOf table v iso).length := by
  unfold vertexCountsBufOf
  rw [List.length_append, List.length_map, activeIDsOf_length, List.length_replicate]
  exact Nat.le_add_right _ _

theorem countsBuf_take (table : Nat → List Int) (v : Volume) (iso : Int) :
    (vertexCountsBufOf table v iso).take (nActiveOf v iso)
      = (activeIDsOf v iso).map (numVertsOf table v iso) := by
  unfold vertexCountsBufOf
  exact List.take_left' (by rw [List.length_map, activeIDsOf_length])

/-- C2: `computeSurface` returns the pair of the total vertex count and the
vertex buffer: the count is the total returned by the exclusive scan of the
per-voxel vertex-count buffer (equivalently, the sum of the per-voxel vertex
counts over the active-voxel list), and the buffer is allocated with exactly
one 3-component 4-byte-float entry per counted vertex. -/
theorem computeSurface_result_pair (table : Nat → List Int) (v : Volume) (iso : Int) :
    (computeSurfaceModel table v iso).count
        = (scan (vertexCountsBufOf table v iso) (nActiveOf v iso)).2
    ∧ (computeSurfaceModel table v iso).count
        = ((activeIDsOf v iso).map (numVertsOf table v iso)).sum
    ∧ (computeSurfaceModel table v iso).buffer.label = "vertices"
    ∧ (computeSurfaceModel table v iso).buffer.sizeBytes
        = (computeSurfaceModel table v iso).count * 3 * 4 := by
  refine ⟨rfl, ?_, rfl, rfl⟩
  show nVerticesOf table v iso = _
  unfold nVerticesOf vertexScanOf
  rw [scan_total _ _ (nActiveOf_le_countsBuf_length table v iso),
    countsBuf_take table v iso]

/-! ## Event ordering -/

/-- Event `e1` occurs strictly before event `e2` somewhere in the trace. -/
def eventPrecedes (e1 e2 : Event) (tr : List Event) : Prop :=
  ∃ a b c, tr = a ++ e1 :: (b ++ e2 :: c)

theorem eventPrecedes_of_mem_append (e1 e2 : Event) (l1 l2 : List Event)
    (h1 : e1 ∈ l1) (h2 : e2 ∈ l2) : eventPrecedes e1 e2 (l1 ++ l2) := by
  obtain ⟨s, t, rfl⟩ := List.append_of_mem h1
  obtain ⟨u, w, rfl⟩ := List.append_of_mem h2
  exact ⟨s, t ++ u, w, by simp⟩

/-- C7: a buffer whose size depends on a scan total is allocated only after
that total's readback: the flag-scan readback precedes both the allocation of
`activeVoxelIDs` and the compaction dispatch that fills it, and the
vertex-count-scan readback precedes the allocation of the output `vertices`
buffer, in every `computeSurface` trace. -/
theorem size_readback_precedes_alloc (table : Nat → List Int) (v : Volume) (iso : Int) :
    eventPrecedes (Event.readback "scanTotal:activeVoxelOffsets")
      (Event.alloc "activeVoxelIDs" (nActiveOf v iso * 4))
      (computeSurfaceEvents table v iso)
    ∧ eventPrecedes (Event.readback "scanTotal:activeVoxelOffsets")
      (Event.dispatch "streamCompactIDs" ["activeVoxelIDs"])
      (computeSurfaceEvents table v iso)
    ∧ eventPrecedes (Event.readback "scanTotal:vertexOffsets")
      (Event.alloc "vertices" (nVerticesOf table v iso * 3 * 4))
      (computeSurfaceEvents table v iso) := by
  refine ⟨?_, ?_, ?_⟩
  · have hsplit : computeSurfaceEvents table v iso
        = (uploadIsovalueEvents
            ++ ([Event.alloc "activeVoxelOffsets" (getAlignedSize v.dualGridNumVoxels * 4),
                 Event.dispatch "markActiveVoxel" ["voxelActive"],
                 Event.copyB "voxelActive" "activeVoxelOffsets"
                   (getAlignedSize v.dualGridNumVoxels * 4),
                 Event.submit]
              ++ scanEvents "activeVoxelOffsets"))
          ++ ([Event.alloc "activeVoxelIDs" (nActiveOf v iso * 4)]
              ++ compactEvents "activeVoxelIDs"
              ++ debugEvents v (nActiveOf v iso)
              ++ computeVertexOffsetsEvents v iso
              ++ computeVerticesEvents table v iso) := by
      simp [computeSurfaceEvents, computeActiveVoxelsEvents]
    rw [hsplit]
    exact eventPrecedes_of_mem_append _ _ _ _
      (by simp [scanEvents, uploadIsovalueEvents, String.append]) (by simp)
  · have hsplit : computeSurfaceEvents table v iso
        = (uploadIsovalueEvents
            ++ ([Event.alloc "activeVoxelOffsets" (getAlignedSize v.dualGridNumVoxels * 4),
                 Event.dispatch "markActiveVoxel" ["voxelActive"],
                 Event.copyB "voxelActive" "activeVoxelOffsets"
                   (getAlignedSize v.dualGridNumVoxels * 4),
                 Event.submit]
              ++ scanEvents "activeVoxelOffsets"
              ++ [Event.alloc "activeVoxelIDs" (nActiveOf v iso * 4)]))
          ++ (compactEvents "activeVoxelIDs"
              ++ debugEvents v (nActiveOf v iso)
              ++ computeVertexOffsetsEvents v iso
              ++ computeVerticesEvents table v iso) := by
      simp [computeSurfaceEvents, computeActiveVoxelsEvents]
    rw [hsplit]
    exact eventPrecedes_of_mem_append _ _ _ _
      (by simp [scanEvents, uploadIsovalueEvents, String.append])
      (by simp [compactEvents])
  · have hsplit : computeSurfaceEvents table v iso
        = (uploadIsovalueEvents
            ++ computeActiveVoxelsEvents v iso
            ++ computeVertexOffsetsEvents v iso)
          ++ computeVerticesEvents table v iso := by
      simp [computeSurfaceEvents]
    rw [hsplit]
    exact eventPrecedes_of_mem_append _ _ _ _
      (by simp [computeVertexOffsetsEvents, scanEvents, String.append])
      (by simp [computeVerticesEvents])

/-! ## Concrete instances -/

set_option maxRecDepth 40000

/-- A 2×2×2-sample volume (one dual-grid voxel) whose z = 0 face samples 0
and whose z = 1 face samples 10 (the spec's §8 end-to-end scenario, scaled to
integers): with isovalue 5 the single voxel is active. -/
def V1 : Volume := ⟨2, 2, 2, fun _ _ z => if z = 0 then 0 else 10⟩

/-- A concrete case table assigning every configuration a row of six edge
entries followed by the `-1` terminator (two triangles, six vertices). -/
def T6 : Nat → List Int := fun _ => [0, 1, 2, 0, 2, 3, -1]

/-- A constant 2×2×2-sample volume: with isovalue 5 no voxel is active. -/
def V2 : Volume := ⟨2, 2, 2, fun _ _ _ => 0⟩

/-- A malformed 1×1×1-sample volume: every dual-grid axis is 0 < 1. -/
def VBad : Volume := ⟨1, 1, 1, fun _ _ _ => 0⟩

/-- C1: refuted on the code. `computeVertices` (`marching_cubes.ts` lines
487-496) only allocates the `vertices` buffer and returns it: it encodes no
compute pass, never dispatches `#computeVerticesPipeline`, and nothing in the
whole `computeSurface` trace writes the output buffer — even at a concrete
call whose vertex count is 6, where the claim requires six interpolated
vertex writes at `vertexOffset[voxel] + localVertexIndex`. -/
theorem computeVertices_writes_nothing :
    (computeSurfaceEvents T6 V1 5).countP (writesBuffer "vertices") = 0
    ∧ computeVerticesEvents T6 V1 5 = [Event.alloc "vertices" (6 * 3 * 4)]
    ∧ (computeSurfaceModel T6 V1 5).count = 6 := by
  decide

/-- C3: refuted as stated. The active-voxel flag buffer `voxelActive` is not
created fresh within `computeSurface`: the call's trace contains no
allocation of it (while dispatching the classifier into it), because it is
allocated once by `create` (`marching_cubes.ts` lines 92-99) as an instance
field, so it is reused across calls and survives each call. -/
theorem voxelActive_not_call_fresh :
    (computeSurfaceEvents T6 V1 5).countP (isAllocOf "voxelActive") = 0
    ∧ (computeSurfaceEvents T6 V1 5).countP (writesBuffer "voxelActive") = 1
    ∧ (createEvents V1).countP (isAllocOf "voxelActive") = 1 := by
  decide

/-- C3 (amended): every `computeSurface` call freshly allocates the scanned
offsets copy, the active-voxel ID list, the vertex-count/vertex-offset
buffer (one buffer, scanned in place) and the returned vertex buffer exactly
once; the active-voxel flag buffer is allocated once at construction, not
within the call. -/
theorem intermediate_buffers_fresh (table : Nat → List Int) (v : Volume) (iso : Int) :
    (computeSurfaceEvents table v iso).countP (isAllocOf "activeVoxelOffsets") = 1
    ∧ (computeSurfaceEvents table v iso).countP (isAllocOf "activeVoxelIDs") = 1
    ∧ (computeSurfaceEvents table v iso).countP (isAllocOf "vertexOffsets") = 1
    ∧ (computeSurfaceEvents table v iso).countP (isAllocOf "vertices") = 1
    ∧ (computeSurfaceEvents table v iso).countP (isAllocOf "voxelActive") = 0
    ∧ (createEvents v).countP (isAllocOf "voxelActive") = 1 := by
  refine ⟨?_, ?_, ?_, ?_, ?_, ?_⟩ <;>
    simp [computeSurfaceEvents, uploadIsovalueEvents, computeActiveVoxelsEvents,
      computeVertexOffsetsEvents, computeVerticesEvents, scanEvents, compactEvents,
      debugEvents, createEvents, List.countP_append, List.countP_cons,
      List.countP_replicate, isAllocOf]

/-- C4: refuted as stated. For the malformed volume `VBad` (all dual-grid
axes 0 < 1) nothing rejects the configuration: `create` allocates its buffers
normally and `computeSurface` begins and runs every stage (8 queue submits),
completing with an empty result instead of being rejected before the
pipeline starts. -/
theorem malformed_volume_not_rejected :
    VBad.dualGridDims0 = 0
    ∧ (createEvents VBad).countP (isAllocOf "voxelActive") = 1
    ∧ (computeSurfaceEvents T6 VBad 5).countP isSubmit = 8
    ∧ computeSurfaceModel T6 VBad 5 = ⟨0, ⟨"vertices", 0⟩⟩ := by
  decide

theorem markActiveFlags_of_no_voxels (v : Volume) (iso : Int)
    (h : v.dualGridNumVoxels = 0) : markActiveFlags v iso = [] := by
  unfold markActiveFlags
  rw [h]
  rfl

theorem nActiveOf_of_no_voxels (v : Volume) (iso : Int)
    (h : v.dualGridNumVoxels = 0) : nActiveOf v iso = 0 := by
  unfold nActiveOf flagScanOf
  rw [h]
  rfl

theorem nVerticesOf_of_no_active (table : Nat → List Int) (v : Volume) (iso : Int)
    (h : nActiveOf v iso = 0) : nVerticesOf table v iso = 0 := by
  unfold nVerticesOf vertexScanOf
  rw [h]
  rfl

/-- C4 (amended): the code performs no dimension validation.  For every
volume with a dual-grid axis < 1 (hence zero dual-grid voxels), `create`
still allocates its buffers and `computeSurface` still begins and runs every
stage, completing with count 0 and a zero-sized vertex buffer. -/
theorem malformed_volume_runs_to_empty (table : Nat → List Int) (v : Volume)
    (iso : Int) (h : v.dualGridNumVoxels = 0) :
    (createEvents v).countP (isAllocOf "voxelActive") = 1
    ∧ (computeSurfaceEvents table v iso).countP isSubmit = 8
    ∧ computeSurfaceModel table v iso = ⟨0, ⟨"vertices", 0⟩⟩ := by
  have h2 := nActiveOf_of_no_voxels v iso h
  have h3 := nVerticesOf_of_no_active table v iso h2
  refine ⟨?_, ?_, ?_⟩
  · simp [createEvents, List.countP_cons, isAllocOf]
  · simp [computeSurfaceEvents, uploadIsovalueEvents, computeActiveVoxelsEvents,
      computeVertexOffsetsEvents, computeVerticesEvents, scanEvents, compactEvents,
      debugEvents, List.countP_append, List.countP_cons, List.countP_replicate,
      isSubmit, h2, pcNumDispatches, PC_MAX_DISPATCH]
  · unfold computeSurfaceModel
    rw [h3]

theorem malformed_volume_runs_to_empty_witness :
    VBad.dualGridNumVoxels = 0
    ∧ ((createEvents VBad).countP (isAllocOf "voxelActive") = 1
      ∧ (computeSurfaceEvents T6 VBad 7).countP isSubmit = 8
      ∧ computeSurfaceModel T6 VBad 7 = ⟨0, ⟨"vertices", 0⟩⟩) :=
  ⟨by decide, malformed_volume_runs_to_empty T6 VBad 7 (by decide)⟩

/-- C9: when the active-voxel scan total is 0, `computeSurface` still runs to
completion: the compacted ID list is empty and its buffer is allocated with
size 0, the vertex-count scan total is 0, and the returned result has count 0
with a zero-sized vertex buffer. -/
theorem empty_surface_completes (table : Nat → List Int) (v : Volume) (iso : Int)
    (h : nActiveOf v iso = 0) :
    activeIDsOf v iso = []
    ∧ (computeSurfaceEvents table v iso).contains (Event.alloc "activeVoxelIDs" 0)
    ∧ nVerticesOf table v iso = 0
    ∧ computeSurfaceModel table v iso = ⟨0, ⟨"vertices", 0⟩⟩ := by
  have h3 := nVerticesOf_of_no_active table v iso h
  refine ⟨?_, ?_, h3, ?_⟩
  · exact List.eq_nil_of_length_eq_zero (by rw [activeIDsOf_length, h])
  · simp [computeSurfaceEvents, uploadIsovalueEvents, computeActiveVoxelsEvents,
      computeVertexOffsetsEvents, computeVerticesEvents, scanEvents, compactEvents,
      debugEvents, h]
  · unfold computeSurfaceModel
    rw [h3]

theorem empty_surface_completes_witness :
    nActiveOf V2 5 = 0
    ∧ (activeIDsOf V2 5 = []
      ∧ (computeSurfaceEvents T6 V2 5).contains (Event.alloc "activeVoxelIDs" 0)
      ∧ nVerticesOf T6 V2 5 = 0
      ∧ computeSurfaceModel T6 V2 5 = ⟨0, ⟨"vertices", 0⟩⟩) :=
  ⟨by decide, empty_surface_completes T6 V2 5 (by decide)⟩

/-! ## Render-pass consumption (`app.ts`) -/

/-- The vertex-buffer `arrayStride` declared by the application's render
pipeline (`app.ts` line 48): `4 * 4` bytes. -/
def renderArrayStride : Nat := 4 * 4

/-- Size of the single declared `float32x4` vertex attribute at offset 0
(`app.ts` line 50). -/
def renderAttributeBytes : Nat := 16

/-- Bytes of the bound vertex buffer a draw of `count` vertices reads
(`app.ts` lines 187-194, `renderPass.draw(isosurface.count, 1, 0, 0)`): the
last vertex starts at `(count - 1) * arrayStride` and the attribute spans 16
bytes. -/
def renderBytesRead (count : Nat) : Nat :=
  if count = 0 then 0 else (count - 1) * renderArrayStride + renderAttributeBytes

/-- C8: refuted on the code.  The orchestrator allocates the vertex buffer at
12 bytes (3 floats) per vertex while the render pass declares a 16-byte
stride with a `float32x4` attribute: at the concrete surface with count 6 the
buffer holds 72 bytes but the draw reads 96, so the buffer is smaller than
what the render pass reads, not at least as large. -/
theorem render_reads_beyond_buffer :
    (computeSurfaceModel T6 V1 5).count = 6
    ∧ (computeSurfaceModel T6 V1 5).buffer.sizeBytes = 6 * 3 * 4
    ∧ renderBytesRead 6 = 96
    ∧ (computeSurfaceModel T6 V1 5).buffer.sizeBytes < renderBytesRead 6 := by
  decide

/-! ## The `volumeInfo` uniform buffer at byte granularity -/

/-- Little-endian bytes of a 32-bit word (for the isovalue, the word is the
bit pattern of the `f32`; the pipeline never arithmetically consumes it
host-side, so it stays opaque). -/
def u32Bytes (w : Nat) : List Nat :=
  [w % 256, w / 256 % 256, w / 65536 % 256, w / 16777216 % 256]

/-- Contents of the 32-byte `volumeInfo` uniform buffer after `create`
(`marching_cubes.ts` lines 84-90): a zeroed 8-word buffer whose first three
words receive `volume.dims`. -/
def volumeInfoInit (v : Volume) : List Nat :=
  u32Bytes v.dims0 ++ u32Bytes v.dims1 ++ u32Bytes v.dims2 ++ List.replicate 20 0

/-- `copyBufferToBuffer(src, 0, dst, dstOff, bytes)` at byte granularity. -/
def copyBytesAt (dst : List Nat) (dstOff : Nat) (src : List Nat) (bytes : Nat) :
    List Nat :=
  dst.take dstOff ++ src.take bytes ++ dst.drop (dstOff + bytes)

/-- `uploadIsovalue` (`marching_cubes.ts` lines 299-312): stage the 4 bytes
of the isovalue's `f32` bit pattern and copy them into `volumeInfo` at byte
offset 16. -/
def uploadIsovalueModel (isoBits : Nat) (volInfo : List Nat) : List Nat :=
  copyBytesAt volInfo 16 (u32Bytes isoBits) 4

theorem uploadIsovalueModel_eq (isoBits : Nat) (buf : List Nat) :
    uploadIsovalueModel isoBits buf
      = buf.take 16 ++ u32Bytes isoBits ++ buf.drop 20 := rfl

theorem uploadIsovalueModel_length (isoBits : Nat) (buf : List Nat)
    (hlen : buf.length = 32) :
    (uploadIsovalueModel isoBits buf).length = 32 := by
  rw [uploadIsovalueModel_eq]
  simp [u32Bytes, hlen]

theorem uploadIsovalueModel_take16 (isoBits : Nat) (buf : List Nat)
    (hlen : buf.length = 32) :
    (uploadIsovalueModel isoBits buf).take 16 = buf.take 16 := by
  rw [uploadIsovalueModel_eq, List.append_assoc,
    List.take_left' (by rw [List.length_take, hlen]; decide)]

theorem volumeInfoInit_length (v : Volume) : (volumeInfoInit v).length = 32 := rfl

theorem upload_fold_take16 (isoSeq : List Nat) (buf : List Nat)
    (hlen : buf.length = 32) :
    (isoSeq.foldl (fun b w => uploadIsovalueModel w b) buf).take 16
      = buf.take 16 := by
  induction isoSeq generalizing buf with
  | nil => rfl
  | cons w rest ih =>
    simp only [List.foldl_cons]
    rw [ih _ (uploadIsovalueModel_length w buf hlen),
      uploadIsovalueModel_take16 w buf hlen]

/-- C10: each isovalue upload writes exactly 4 bytes (the isovalue's 32-bit
float pattern) at byte offset 16 of the 32-byte `volumeInfo` buffer — bytes
before 16 and from 20 on are unchanged — so the first 16 bytes, holding the
dims uploaded at construction, survive any sequence of uploads. -/
theorem uploadIsovalue_touches_only_bytes_16_to_19 (isoBits : Nat) (buf : List Nat)
    (hlen : buf.length = 32) (isoSeq : List Nat) (v : Volume) :
    (uploadIsovalueModel isoBits buf).length = 32
    ∧ (uploadIsovalueModel isoBits buf).take 16 = buf.take 16
    ∧ ((uploadIsovalueModel isoBits buf).drop 16).take 4 = u32Bytes isoBits
    ∧ (uploadIsovalueModel isoBits buf).drop 20 = buf.drop 20
    ∧ (isoSeq.foldl (fun b w => uploadIsovalueModel w b) (volumeInfoInit v)).take 16
        = (volumeInfoInit v).take 16 := by
  refine ⟨uploadIsovalueModel_length isoBits buf hlen,
    uploadIsovalueModel_take16 isoBits buf hlen, ?_, ?_,
    upload_fold_take16 isoSeq (volumeInfoInit v) (volumeInfoInit_length v)⟩
  · rw [uploadIsovalueModel_eq, List.append_assoc,
      List.drop_left' (by rw [List.length_take, hlen]; decide),
      List.take_left' (show (u32Bytes isoBits).length = 4 from rfl)]
  · rw [uploadIsovalueModel_eq,
      List.drop_left' (by
        rw [List.length_append, List.length_take, hlen,
          show (u32Bytes isoBits).length = 4 from rfl]
        decide)]

theorem uploadIsovalue_touches_only_bytes_16_to_19_witness :
    (volumeInfoInit V1).length = 32
    ∧ ((uploadIsovalueModel 1056964608 (volumeInfoInit V1)).length = 32
      ∧ (uploadIsovalueModel 1056964608 (volumeInfoInit V1)).take 16
          = (volumeInfoInit V1).take 16
      ∧ ((uploadIsovalueModel 1056964608 (volumeInfoInit V1)).drop 16).take 4
          = u32Bytes 1056964608
      ∧ (uploadIsovalueModel 1056964608 (volumeInfoInit V1)).drop 20
          = (volumeInfoInit V1).drop 20
      ∧ (([3, 5, 9] : List Nat).foldl (fun b w => uploadIsovalueModel w b)
            (volumeInfoInit V1)).take 16
          = (volumeInfoInit V1).take 16) :=
  ⟨by decide,
    uploadIsovalue_touches_only_bytes_16_to_19 1056964608 (volumeInfoInit V1)
      (by decide) [3, 5, 9] V1⟩

end MCVerify
